import Mathlib

/-!
Verification development for the tkestack/gpu-admission scheduler extender.

The Go sources are shallowly embedded as executable Lean definitions:
  * `pkg/util/util.go`      → resource-request helpers, annotation parsing
  * `pkg/device`            → `DeviceInfo`, `NodeInfo`, the lexicographic comparators
  * `pkg/algorithm`         → share / exclusive allocation, `Allocate`, `AllocateOne`
  * `pkg/predicate` (quota variant) → `deviceFilter`, `quotaFilter`, `Filter`,
    quota syncing and the annotation patch retry loop.

External effects (informer listers, the API-server patch, wall-clock time) are
passed in as explicit data: the cluster caches become lists of pods and nodes,
the patch call becomes a sequence of attempt outcomes, and `time.Now()` becomes
a `Nat` parameter.  Go `uint`/`int` counters are modelled as `Nat`/`Int`; all
values reaching them are derived from non-negative `int64` resource quantities,
so no 64-bit wraparound is reachable and the modelling is exact on that domain.
-/

namespace GPUAdmission

/-! ## Constants (pkg/util/util.go) -/

def VCoreKey : String := "tencent.com/vcuda-core"

def VMemoryKey : String := "tencent.com/vcuda-memory"

def PredicateTimeKey : String := "tencent.com/predicate-time"

def PredicateGPUIndexStem : String := "tencent.com/predicate-gpu-idx-"

def PredicateNodeKey : String := "tencent.com/predicate-node"

def GPUAssigned : String := "tencent.com/gpu-assigned"

def HundredCore : Nat := 100

/-! ## String helpers

`strContains` models Go `strings.Contains`; `nameLt` models Go string `<`
(byte-wise lexicographic; the embedding compares unicode code points, which
agrees on the ASCII names used throughout). `splitOnComma` models
`strings.Split(s, ",")` and `atoi` models `strconv.Atoi` (overflow of int64,
irrelevant at the scale of device indices, is ignored). -/

def isPrefixL : List Char → List Char → Bool
  | [], _ => true
  | _ :: _, [] => false
  | a :: as, b :: bs => a == b && isPrefixL as bs

def containsL (sub : List Char) : List Char → Bool
  | [] => isPrefixL sub []
  | c :: rest => isPrefixL sub (c :: rest) || containsL sub rest

def strContains (s sub : String) : Bool := containsL sub.data s.data

def charsLt : List Char → List Char → Bool
  | [], [] => false
  | [], _ :: _ => true
  | _ :: _, [] => false
  | a :: as, b :: bs =>
    if a.toNat < b.toNat then true
    else if b.toNat < a.toNat then false
    else charsLt as bs

def nameLt (s t : String) : Bool := charsLt s.data t.data

def splitOnComma : List Char → List (List Char)
  | [] => [[]]
  | c :: rest =>
    if c == ',' then [] :: splitOnComma rest
    else
      match splitOnComma rest with
      | [] => [[c]]
      | h :: t => (c :: h) :: t

def digitVal (c : Char) : Option Nat :=
  if '0' ≤ c ∧ c ≤ '9' then some (c.toNat - '0'.toNat) else none

def parseDigitsAux (acc : Nat) : List Char → Option Nat
  | [] => some acc
  | c :: rest =>
    match digitVal c with
    | none => none
    | some d => parseDigitsAux (acc * 10 + d) rest

def parseDigits : List Char → Option Nat
  | [] => none
  | cs => parseDigitsAux 0 cs

def atoi (s : List Char) : Option Int :=
  match s with
  | '-' :: rest => (parseDigits rest).map (fun n => -(n : Int))
  | '+' :: rest => (parseDigits rest).map (fun n => (n : Int))
  | _ => (parseDigits s).map (fun n => (n : Int))

/-! ## Data model (corev1 objects, restricted to the fields the code reads) -/

inductive PodPhase where
  | Pending
  | Running
  | Succeeded
  | Failed
  | Unknown
deriving DecidableEq, Repr

/-- A container: only the GPU resource limits matter
(`Resources.Limits[...]`, absent key ↦ absent entry). -/
structure Container where
  name : String
  limits : List (String × Nat)
deriving DecidableEq, Repr

/-- A pod: name, namespace, `Spec.NodeName`, phase, annotations, containers. -/
structure Pod where
  name : String
  ns : String
  nodeName : String
  phase : PodPhase
  annots : List (String × String)
  containers : List Container
deriving DecidableEq, Repr

/-- A node: name, labels and `Status.Capacity`. -/
structure Node where
  name : String
  labels : List (String × String)
  capacity : List (String × Nat)
deriving DecidableEq, Repr

/-! ## pkg/util/util.go -/

/-- `GetGPUResourceOfContainer`: limit of `resourceName`, 0 when absent. -/
def GetGPUResourceOfContainer (c : Container) (resourceName : String) : Nat :=
  (c.limits.lookup resourceName).getD 0

/-- `GetGPUResourceOfPod`: sum of the containers' limits of `resourceName`. -/
def GetGPUResourceOfPod (pod : Pod) (resourceName : String) : Nat :=
  (pod.containers.map (fun c => GetGPUResourceOfContainer c resourceName)).sum

/-- `IsGPURequiredContainer`: `vcore > 0 && (vcore >= 100 || vmemory > 0)`. -/
def IsGPURequiredContainer (c : Container) : Bool :=
  let vcore := GetGPUResourceOfContainer c VCoreKey
  let vmemory := GetGPUResourceOfContainer c VMemoryKey
  !(vcore ≤ 0 || (vcore < HundredCore && vmemory ≤ 0))

/-- `IsGPURequiredPod`: same test on the pod-level sums. -/
def IsGPURequiredPod (pod : Pod) : Bool :=
  let vcore := GetGPUResourceOfPod pod VCoreKey
  let vmemory := GetGPUResourceOfPod pod VMemoryKey
  !(vcore ≤ 0 || (vcore < HundredCore && vmemory ≤ 0))

/-- `GetCapacityOfNode`: `node.Status.Capacity[resourceName]`, 0 when absent. -/
def GetCapacityOfNode (node : Node) (resourceName : String) : Nat :=
  (node.capacity.lookup resourceName).getD 0

/-- `IsGPUEnabledNode`: vcuda-core capacity strictly positive. -/
def IsGPUEnabledNode (node : Node) : Bool :=
  0 < GetCapacityOfNode node VCoreKey

/-- `GetGPUDeviceCountOfNode`: vcuda-core capacity divided by 100 (0 when the
capacity entry is absent). -/
def GetGPUDeviceCountOfNode (node : Node) : Nat :=
  match node.capacity.lookup VCoreKey with
  | none => 0
  | some v => v / HundredCore

/-- `GetPredicateIdxOfContainer`: read annotation
`tencent.com/predicate-gpu-idx-<i>`, split on commas, `Atoi` each piece.
The Go function returns `(partial, err)`; its only caller drops the partial
list when `err != nil`, so the embedding returns `none` in every error case. -/
def GetPredicateIdxOfContainer (pod : Pod) (containerIndex : Nat) : Option (List Int) :=
  match pod.annots.lookup (PredicateGPUIndexStem ++ toString containerIndex) with
  | none => none
  | some s => (splitOnComma s.data).mapM atoi

/-- `ShouldRetry` classifies a patch attempt error: only `Conflict` and
`ServerTimeout` API errors are retryable. -/
inductive PatchAttempt where
  | success
  | conflict
  | serverTimeout
  | otherError
deriving DecidableEq, Repr

def ShouldRetry : PatchAttempt → Bool
  | .conflict => true
  | .serverTimeout => true
  | _ => false

/-! ## pkg/device: DeviceInfo -/

structure DeviceInfo where
  id : Nat
  totalMemory : Nat
  usedMemory : Nat
  usedCore : Nat
deriving DecidableEq, Repr

def newDeviceInfo (id : Nat) (totalMemory : Nat) : DeviceInfo :=
  { id := id, totalMemory := totalMemory, usedMemory := 0, usedCore := 0 }

def DeviceInfo.GetID (d : DeviceInfo) : Nat := d.id

/-- `DeviceInfo.AddUsedResources`: reject when either ceiling would be
exceeded, otherwise add to both counters. -/
def DeviceInfo.AddUsedResources (dev : DeviceInfo) (usedCore usedMemory : Nat) :
    Except String DeviceInfo :=
  if usedCore + dev.usedCore > HundredCore then
    .error "update usedcore failed"
  else if usedMemory + dev.usedMemory > dev.totalMemory then
    .error "update usedmemory failed"
  else
    .ok { dev with usedCore := dev.usedCore + usedCore,
                   usedMemory := dev.usedMemory + usedMemory }

def DeviceInfo.AllocatableCores (d : DeviceInfo) : Nat :=
  HundredCore - d.usedCore

def DeviceInfo.AllocatableMemory (d : DeviceInfo) : Nat :=
  d.totalMemory - d.usedMemory

/-! The chained comparator `(ByAllocatableCores, ByAllocatableMemory, ByID)`
from pkg/device/sort.go, instantiated at `DeviceInfo`.  The Go `Less` walks
the chain: strictly-less wins, strictly-greater loses, ties fall through. -/

def devLess (a b : DeviceInfo) : Bool :=
  if a.AllocatableCores < b.AllocatableCores then true
  else if b.AllocatableCores < a.AllocatableCores then false
  else if a.AllocatableMemory < b.AllocatableMemory then true
  else if b.AllocatableMemory < a.AllocatableMemory then false
  else decide (a.id < b.id)

/-- Non-strict version of `devLess`, the order the sorted output satisfies. -/
def devLe (a b : DeviceInfo) : Prop := devLess b a = false

instance : DecidableRel devLe := fun a b => by
  unfold devLe; infer_instance

/-- `sort.Sort` with the device comparator: an ascending reordering.  Go's
sort is unstable but the comparator chain ends in the (distinct) device ids,
so the sorted list is unique; insertion sort realises it. -/
def sortDevs (l : List DeviceInfo) : List DeviceInfo :=
  List.insertionSort devLe l

/-! ## pkg/device: NodeInfo -/

/-- `NodeInfo`: the request-local view of one node.  The Go field
`devs : map[int]*DeviceInfo` always holds exactly the keys
`0 .. deviceCount-1` (set once in `NewNodeInfo`), so it is embedded as a list
indexed by device id. -/
structure NodeInfo where
  name : String
  node : Node
  devs : List DeviceInfo
  deviceCount : Nat
  totalMemory : Nat
  usedCore : Nat
  usedMemory : Nat
deriving DecidableEq, Repr

def NodeInfo.GetDeviceCount (n : NodeInfo) : Nat := n.deviceCount

def NodeInfo.GetNode (n : NodeInfo) : Node := n.node

def NodeInfo.GetName (n : NodeInfo) : String := n.name

/-- `NodeInfo.GetAvailableCore`: `deviceCount*100 - usedCore` (Go `int`). -/
def NodeInfo.GetAvailableCore (n : NodeInfo) : Int :=
  (n.deviceCount * HundredCore : Int) - (n.usedCore : Int)

/-- `NodeInfo.GetAvailableMemory`: `totalMemory - usedMemory` (Go `int`;
the aggregate invariant keeps the subtraction non-negative). -/
def NodeInfo.GetAvailableMemory (n : NodeInfo) : Int :=
  (n.totalMemory : Int) - (n.usedMemory : Int)

/-- `NodeInfo.AddUsedResources`: delegate to the device, then update the
aggregates.  In Go an out-of-range `devID` would dereference a nil map entry;
the embedding reports it as an error (no claim exercises that input). -/
def NodeInfo.AddUsedResources (n : NodeInfo) (devID : Nat) (vcore vmemory : Nat) :
    Except String NodeInfo :=
  match n.devs[devID]? with
  | none => .error "no such device"
  | some dev =>
    match dev.AddUsedResources vcore vmemory with
    | .error e => .error e
    | .ok dev' =>
      .ok { n with devs := n.devs.set devID dev',
                   usedCore := n.usedCore + vcore,
                   usedMemory := n.usedMemory + vmemory }

/-- One replay step of `NewNodeInfo` for a single predicate index of container
`c`:  out-of-range indices are skipped, share-mode containers
(`vcore < 100`) charge `(vcore, vmemory)`, others charge
`(100, deviceTotalMemory)`; a failing charge is logged and dropped.
A negative index would crash the Go process (nil map dereference); the
embedding skips it, which no claim nor theorem below relies on. -/
def replayIdx (deviceTotalMemory deviceCount : Nat) (c : Container)
    (ni : NodeInfo) (index : Int) : NodeInfo :=
  if (deviceCount : Int) ≤ index then ni
  else
    match index with
    | .negSucc _ => ni
    | .ofNat idx =>
      let vcore0 := GetGPUResourceOfContainer c VCoreKey
      let vcore := if vcore0 < HundredCore then vcore0 else HundredCore
      let vmemory := if vcore0 < HundredCore then GetGPUResourceOfContainer c VMemoryKey
                     else deviceTotalMemory
      match ni.AddUsedResources idx vcore vmemory with
      | .error _ => ni
      | .ok ni' => ni'

/-- Replay all predicate indices of one container. -/
def replayIdxs (deviceTotalMemory deviceCount : Nat) (c : Container)
    (ni : NodeInfo) (idxs : List Int) : NodeInfo :=
  idxs.foldl (replayIdx deviceTotalMemory deviceCount c) ni

/-- Replay one pod: for each container `i`, read and replay
`predicate-gpu-idx-<i>` (a missing or malformed annotation skips the
container). -/
def replayPod (deviceTotalMemory deviceCount : Nat) (ni : NodeInfo) (pod : Pod) :
    NodeInfo :=
  (pod.containers.enum).foldl
    (fun acc ic =>
      match GetPredicateIdxOfContainer pod ic.1 with
      | none => acc
      | some idxs => replayIdxs deviceTotalMemory deviceCount ic.2 acc idxs)
    ni

/-- `NewNodeInfo`: fresh devices `0 .. deviceCount-1`, each with
`nodeTotalMemory / deviceCount` memory, then replay of the given pods'
reservations. -/
def NewNodeInfo (node : Node) (pods : List Pod) : NodeInfo :=
  let nodeTotalMemory := GetCapacityOfNode node VMemoryKey
  let deviceCount := GetGPUDeviceCountOfNode node
  let deviceTotalMemory := nodeTotalMemory / deviceCount
  let devMap := (List.range deviceCount).map (fun i => newDeviceInfo i deviceTotalMemory)
  let init : NodeInfo :=
    { name := node.name, node := node, devs := devMap, deviceCount := deviceCount,
      totalMemory := nodeTotalMemory, usedCore := 0, usedMemory := 0 }
  pods.foldl (replayPod deviceTotalMemory deviceCount) init

/-! The node comparator `(ByAllocatableCores, ByAllocatableMemory, ByID)`
instantiated at `NodeInfo`: available cores, available memory, node name. -/

def nodeLess (a b : NodeInfo) : Bool :=
  if a.GetAvailableCore < b.GetAvailableCore then true
  else if b.GetAvailableCore < a.GetAvailableCore then false
  else if a.GetAvailableMemory < b.GetAvailableMemory then true
  else if b.GetAvailableMemory < a.GetAvailableMemory then false
  else nameLt a.GetName b.GetName

def nodeLe (a b : NodeInfo) : Prop := nodeLess b a = false

instance : DecidableRel nodeLe := fun a b => by
  unfold nodeLe; infer_instance

def sortNodeInfos (l : List NodeInfo) : List NodeInfo :=
  List.insertionSort nodeLe l

/-! ## pkg/algorithm: share mode, exclusive mode, allocator -/

/-- `shareMode.Evaluate`: sort all devices of the node ascending by the device
comparator and pick the first one that satisfies `(cores, memory)`; the `break`
makes the result at most a singleton. -/
def shareModeEvaluate (node : NodeInfo) (cores memory : Nat) : List DeviceInfo :=
  let sorted := sortDevs node.devs
  match sorted.find? (fun dev =>
      cores ≤ dev.AllocatableCores && memory ≤ dev.AllocatableMemory) with
  | none => []
  | some dev => [dev]

/-- The picking loop of `exclusiveMode.Evaluate`: walk the sorted devices,
collecting completely-free devices (`AllocatableCores == 100`) until `num`
have been taken. Returns the collected devices and the remaining count. -/
def exclusivePick (num : Nat) : List DeviceInfo → (List DeviceInfo × Nat)
  | [] => ([], num)
  | dev :: rest =>
    if num = 0 then ([], 0)
    else if dev.AllocatableCores = HundredCore then
      let (devs, rem) := exclusivePick (num - 1) rest
      (dev :: devs, rem)
    else exclusivePick num rest

/-- `exclusiveMode.Evaluate`: `num = cores / 100` whole devices; if fewer
completely-free devices exist the result is empty (`nil`). The memory argument
is ignored by the Go code (`_ uint`). -/
def exclusiveModeEvaluate (node : NodeInfo) (cores : Nat) : List DeviceInfo :=
  let sorted := sortDevs node.devs
  let num := cores / HundredCore
  let (devs, rem) := exclusivePick num sorted
  if 0 < rem then [] else devs

/-- The charging loop at the end of `allocator.AllocateOne`: charge
`(vcore, vmemory)` on each chosen device, aborting on the first failure. -/
def chargeAll (ni : NodeInfo) (devs : List DeviceInfo) (vcore vmemory : Nat) :
    Except String NodeInfo :=
  match devs with
  | [] => .ok ni
  | dev :: rest =>
    match ni.AddUsedResources dev.id vcore vmemory with
    | .error e => .error e
    | .ok ni' => chargeAll ni' rest vcore vmemory

/-- `allocator.AllocateOne`: dispatch on `needCores < 100` (share) versus
exclusive, fail when the evaluation returns no device, then charge the chosen
devices: `(needCores, needMemory)` in share mode, `(100, deviceTotalMemory)`
in exclusive mode. -/
def AllocateOne (ni : NodeInfo) (c : Container) :
    Except String (List DeviceInfo × NodeInfo) :=
  let node := ni.GetNode
  let nodeTotalMemory := GetCapacityOfNode node VMemoryKey
  let deviceCount := GetGPUDeviceCountOfNode node
  let deviceTotalMemory := nodeTotalMemory / deviceCount
  let needCores := GetGPUResourceOfContainer c VCoreKey
  let needMemory := GetGPUResourceOfContainer c VMemoryKey
  let sharedMode := needCores < HundredCore
  let devs := if sharedMode then shareModeEvaluate ni needCores needMemory
              else exclusiveModeEvaluate ni needCores
  if devs.isEmpty then .error ("failed to allocate for container " ++ c.name)
  else
    let vcore := if sharedMode then needCores else HundredCore
    let vmemory := if sharedMode then needMemory else deviceTotalMemory
    match chargeAll ni devs vcore vmemory with
    | .error e => .error e
    | .ok ni' => .ok (devs, ni')

/-- The loop body of `allocator.Allocate`: allocate every GPU-requesting
container in order, threading the node state, and record the device ids
chosen for container `i` under `predicate-gpu-idx-<i>`. -/
def allocateContainers (ni : NodeInfo) :
    List (Nat × Container) → Except String (List (String × String) × NodeInfo)
  | [] => .ok ([], ni)
  | (i, c) :: rest =>
    if IsGPURequiredContainer c then
      match AllocateOne ni c with
      | .error e => .error e
      | .ok (devs, ni') =>
        match allocateContainers ni' rest with
        | .error e => .error e
        | .ok (anns, ni'') =>
          .ok ((PredicateGPUIndexStem ++ toString i,
                String.intercalate "," (devs.map (fun d => toString d.id))) :: anns,
               ni'')
    else allocateContainers ni rest

/-- Upsert into an annotation list (Go map assignment). -/
def setAnnot (l : List (String × String)) (k v : String) : List (String × String) :=
  (k, v) :: l.filter (fun kv => kv.1 ≠ k)

/-- `allocator.Allocate`: on success returns the pod copy with the per-container
index annotations plus `predicate-node`, `gpu-assigned = "false"` and
`predicate-time` (the `time.Now().UnixNano()` value is the `now` parameter). -/
def Allocate (now : Nat) (ni : NodeInfo) (pod : Pod) : Except String Pod :=
  match allocateContainers ni pod.containers.enum with
  | .error e => .error e
  | .ok (anns, _) =>
    let base := anns.foldl (fun acc kv => setAnnot acc kv.1 kv.2) pod.annots
    let withNode := setAnnot base PredicateNodeKey ni.GetName
    let withAssigned := setAnnot withNode GPUAssigned "false"
    let withTime := setAnnot withAssigned PredicateTimeKey (toString now)
    .ok { pod with annots := withTime }

/-! ## pkg/predicate (quota variant): GPUFilter -/

/-- The informer caches the filter reads from: all nodes and all pods the
listers can see. -/
structure Cluster where
  nodes : List Node
  pods : List Pod
deriving DecidableEq, Repr

/-- The already-predicated scan at the top of `deviceFilter`: any annotation
key containing one of the three predicate substrings. -/
def isPredicated (pod : Pod) : Bool :=
  pod.annots.any (fun kv =>
    strContains kv.1 GPUAssigned ||
    strContains kv.1 PredicateTimeKey ||
    strContains kv.1 PredicateGPUIndexStem)

/-- `GPUFilter.ListPodsOnNode`: pods bound to the node
(`Spec.NodeName == node.Name`) or predicted onto it
(`Spec.NodeName == "" && annotations[predicate-node] == node.Name`), excluding
Succeeded and Failed pods.  The lister error branch (cache read) is not
modelled. -/
def ListPodsOnNode (cluster : Cluster) (node : Node) : List Pod :=
  cluster.pods.filter (fun pod =>
    let predicateNode :=
      if pod.nodeName = "" then (pod.annots.lookup PredicateNodeKey).getD ""
      else ""
    (pod.nodeName == node.name || predicateNode == node.name) &&
      pod.phase ≠ PodPhase.Succeeded && pod.phase ≠ PodPhase.Failed)

/-- `wait.PollImmediate(time.Second, waitTimeout, ...)` around the patch call:
attempt `k` yields `attempts k`; success stops with `true`, a non-retryable
error stops with `false`, a retryable error polls again until the budget is
exhausted.  The 1-second-interval / 10-second-ceiling budget amounts to the
immediate attempt plus ten polls. -/
def pollPatch (attempts : Nat → PatchAttempt) : Nat → Nat → Bool
  | 0, _ => false
  | fuel + 1, k =>
    match attempts k with
    | .success => true
    | a => if ShouldRetry a then pollPatch attempts fuel (k + 1) else false

def patchBudget : Nat := 11

/-- `GPUFilter.patchPodWithAnnotations`: true iff the strategic-merge patch
eventually succeeded within the retry budget. -/
def patchPodWithAnnots (attempts : Nat → PatchAttempt) : Bool :=
  pollPatch attempts patchBudget 0

/-- The second loop of `deviceFilter`: walk the sorted `NodeInfo` list with
the `success` flag.  After a success every node is failed with "already been
matched"; before it, a failed allocation yields "does not match", a failed
patch yields "update pod annotation failed", and the first node where both
succeed is appended to the accepted list. -/
def walkNodes (now : Nat) (pod : Pod) (patchOk : String → Bool) :
    List NodeInfo → Bool → List Node × List (String × String)
  | [], _ => ([], [])
  | info :: rest, success =>
    if success then
      let r := walkNodes now pod patchOk rest true
      (r.1, (info.GetName, "already been matched to another node") :: r.2)
    else
      match Allocate now info pod with
      | .error _ =>
        let r := walkNodes now pod patchOk rest false
        (r.1, (info.GetName, "does not match with this node") :: r.2)
      | .ok _ =>
        if patchOk info.GetName then
          let r := walkNodes now pod patchOk rest true
          (info.GetNode :: r.1, r.2)
        else
          let r := walkNodes now pod patchOk rest false
          (r.1, (info.GetName, "update pod annotation failed") :: r.2)

/-- `GPUFilter.deviceFilter` (quota variant): a predicated pod short-circuits
with no accepted node; otherwise GPU-less candidates are failed with
"no GPU device", `NodeInfo`s are built for the rest, sorted ascending by
`(availableCores, availableMemory, name)`, and walked. -/
def candidateInfos (cluster : Cluster) (nodes : List Node) : List NodeInfo :=
  (nodes.filter IsGPUEnabledNode).map (fun n => NewNodeInfo n (ListPodsOnNode cluster n))

def deviceFilter (cluster : Cluster) (patchOk : String → Bool) (now : Nat)
    (pod : Pod) (nodes : List Node) : List Node × List (String × String) :=
  if isPredicated pod then ([], [])
  else
    let failed0 := (nodes.filter (fun n => !IsGPUEnabledNode n)).map
      (fun n => (n.name, "no GPU device"))
    let sorted := sortNodeInfos (candidateInfos cluster nodes)
    let r := walkNodes now pod patchOk sorted false
    (r.1, failed0 ++ r.2)

/-! ### Quota -/

/-- `NamespaceQuota`: per-model whole-GPU limits (Go `int`) and permitted
pools. -/
structure NamespaceQuota where
  quota : List (String × Int)
  pool : List String
deriving DecidableEq, Repr

/-- `quotaPod`: a pod counts against quota iff its phase is neither Failed nor
Succeeded. -/
def quotaPod (pod : Pod) : Bool :=
  !(pod.phase = PodPhase.Failed || pod.phase = PodPhase.Succeeded)

/-- `calculateGPUUsage`: total vcuda-core request of the quota-eligible pods. -/
def calculateGPUUsage (pods : List Pod) : Int :=
  ((pods.filter quotaPod).map (fun p => (GetGPUResourceOfPod p VCoreKey : Int))).sum

/-- `GPUFilter.listPodsOnNodes`: pods of `podNamespace` placed
(`Spec.NodeName`) on a node matched by the label selector. -/
def listPodsOnNodes (cluster : Cluster) (sel : Node → Bool) (podNamespace : String) :
    List Pod :=
  let records := (cluster.nodes.filter sel).map Node.name
  cluster.pods.filter (fun p => p.ns == podNamespace && records.contains p.nodeName)

/-- The `MatchLabels {modelLabel: gpuModel}` selector. -/
def modelSelector (modelLabel gpuModel : String) (n : Node) : Bool :=
  n.labels.lookup modelLabel == some gpuModel

/-- `GPUFilter.filterGPUModel`: keep model `m` iff the namespace's current
usage on `m`-labeled nodes plus the pending pod stays within `limit*100`. -/
def filterGPUModel (modelLabel : String) (cluster : Cluster) (pod : Pod)
    (namespaceQuota : NamespaceQuota) : List String :=
  (namespaceQuota.quota.filter (fun ml =>
    let limit := ml.2 * (HundredCore : Int)
    let pods := listPodsOnNodes cluster (modelSelector modelLabel ml.1) pod.ns
    calculateGPUUsage (pods ++ [pod]) ≤ limit)).map Prod.fst

/-- The `LabelSelectorOpIn` match used by `filterNodes`: empty accepted-model
list means `labels.Nothing()` (matches nothing); empty pool list means
`labels.Everything()`. -/
def nodePassesQuota (modelLabel poolLabel : String) (gpuModels pools : List String)
    (n : Node) : Bool :=
  (match gpuModels with
   | [] => false
   | _ => ((n.labels.lookup modelLabel).map gpuModels.contains).getD false) &&
  (match pools with
   | [] => true
   | _ => ((n.labels.lookup poolLabel).map pools.contains).getD false)

/-- `GPUFilter.filterNodes`: keep nodes passing both selectors, fail the rest
with "ExceedsGPUQuota". -/
def filterNodes (modelLabel poolLabel : String) (nodes : List Node)
    (gpuModels pools : List String) : List Node × List (String × String) :=
  let passes := nodePassesQuota modelLabel poolLabel gpuModels pools
  ((nodes.filter passes),
   (nodes.filter (fun n => !passes n)).map (fun n => (n.name, "ExceedsGPUQuota")))

/-- `GPUFilter.quotaFilter`: a namespace without a quota record passes every
node untouched. -/
def quotaFilter (modelLabel poolLabel : String)
    (quota : List (String × NamespaceQuota)) (cluster : Cluster)
    (pod : Pod) (nodes : List Node) : List Node × List (String × String) :=
  match quota.lookup pod.ns with
  | none => (nodes, [])
  | some q =>
    let models := filterGPUModel modelLabel cluster pod q
    filterNodes modelLabel poolLabel nodes models q.pool

/-! ### Quota sync and the request-level Filter -/

/-- Mutable quota state of `GPUFilter`: the namespace map and
`quotaLastSyncedRevision` (empty string until the first successful sync). -/
structure GPUFilterState where
  quota : List (String × NamespaceQuota)
  quotaLastSyncedRevision : String
deriving DecidableEq, Repr

/-- What one run of `syncQuota` observes: the configmap get either fails with
a not-found error, fails otherwise, or returns the configmap.  The JSON
decoding of its `gpu_quota` key is abstracted to its result (`parse`). -/
inductive ConfigMapResult where
  | notFound
  | otherError
  | found (resourceVersion : String) (parse : Except String (List (String × NamespaceQuota)))
deriving Repr

/-- `GPUFilter.syncQuota`: not-found clears the quota under revision "none";
other read errors and parse errors leave the state alone; an unchanged
resource version is skipped. -/
def syncQuota (st : GPUFilterState) (r : ConfigMapResult) : GPUFilterState :=
  match r with
  | .notFound => { quota := [], quotaLastSyncedRevision := "none" }
  | .otherError => st
  | .found rv parse =>
    if rv = st.quotaLastSyncedRevision then st
    else
      match parse with
      | .error _ => st
      | .ok q => { quota := q, quotaLastSyncedRevision := rv }

/-- `schedulerapi.ExtenderFilterResult`: accepted nodes, failed-nodes map,
and the error string (`none` embeds Go's empty string). -/
structure ExtenderFilterResult where
  nodes : List Node
  failedNodes : List (String × String)
  error : Option String
deriving DecidableEq, Repr

/-- `GPUFilter.Filter` (quota variant): non-GPU pods pass through unchanged;
an unsynced quota store fails the whole call; otherwise the quota filter and
then the device filter run in order, merging their failed-node maps.  The
`SkipBindTime` sleep has no observable effect on the result and is omitted. -/
def Filter (modelLabel poolLabel : String) (st : GPUFilterState)
    (cluster : Cluster) (patchOk : String → Bool) (now : Nat)
    (pod : Pod) (nodes : List Node) : ExtenderFilterResult :=
  if !IsGPURequiredPod pod then
    { nodes := nodes, failedNodes := [], error := none }
  else if st.quotaLastSyncedRevision = "" then
    { nodes := [], failedNodes := [],
      error := some "GPU quota has not been synced, please retry later" }
  else
    let r1 := quotaFilter modelLabel poolLabel st.quota cluster pod nodes
    let r2 := deviceFilter cluster patchOk now pod r1.1
    { nodes := r2.1, failedNodes := r1.2 ++ r2.2, error := none }

/-! ## Specification-side helper definitions used by the theorem statements -/

/-- The walk attempts allocation on a node view; this is its success test. -/
def allocOk (now : Nat) (pod : Pod) (i : NodeInfo) : Bool :=
  (Allocate now i pod).isOk

/-- A node view on which both the allocation and the annotation patch
succeed. -/
def allocPatchOk (now : Nat) (pod : Pod) (patchOk : String → Bool) (i : NodeInfo) : Bool :=
  (Allocate now i pod).isOk && patchOk i.GetName

/-- The completely-free devices of a node, in comparator order. -/
def freeDevs (ni : NodeInfo) : List DeviceInfo :=
  (sortDevs ni.devs).filter (fun d => d.AllocatableCores = HundredCore)

/-- `nodeTotalMemory / deviceCount`, the uniform per-device memory. -/
def deviceTotalMemoryOf (node : Node) : Nat :=
  GetCapacityOfNode node VMemoryKey / GetGPUDeviceCountOfNode node

/-- A device after a successful `(vc, vm)` reservation. -/
def chargedDev (d : DeviceInfo) (vc vm : Nat) : DeviceInfo :=
  { d with usedCore := d.usedCore + vc, usedMemory := d.usedMemory + vm }

/-- The device list is positional: device `k` sits at index `k` (true of every
`NewNodeInfo` result and preserved by charging). -/
def WellIndexed (ni : NodeInfo) : Prop :=
  ni.devs.map DeviceInfo.GetID = List.range ni.devs.length

instance (ni : NodeInfo) : Decidable (WellIndexed ni) := by
  unfold WellIndexed; infer_instance

/-- A client holding one device and issuing a sequence of `reserve` calls,
keeping its previous state whenever a call fails. -/
def applyReserves (d : DeviceInfo) : List (Nat × Nat) → DeviceInfo
  | [] => d
  | (c, m) :: rest =>
    match d.AddUsedResources c m with
    | .error _ => applyReserves d rest
    | .ok d' => applyReserves d' rest

/-- Names of the cluster nodes whose `gpu-model` label equals `m`. -/
def modelNodesOf (modelLabel m : String) (cluster : Cluster) : List String :=
  (cluster.nodes.filter (modelSelector modelLabel m)).map Node.name

/-- Spec-side quota usage: total vcuda-core request of the namespace's
non-terminal pods placed on nodes labeled with model `m`. -/
def specModelUsage (modelLabel m ns : String) (cluster : Cluster) : Int :=
  ((cluster.pods.filter (fun p =>
      quotaPod p && (p.ns == ns && (modelNodesOf modelLabel m cluster).contains p.nodeName))).map
    (fun p => (GetGPUResourceOfPod p VCoreKey : Int))).sum

/-! ## Concrete fixtures for witnesses and counterexamples -/

def exNodeA : Node :=
  { name := "a", labels := [], capacity := [(VCoreKey, 100), (VMemoryKey, 4)] }

def exNodeB : Node :=
  { name := "b", labels := [], capacity := [(VCoreKey, 100), (VMemoryKey, 4)] }

def exNodeC : Node :=
  { name := "c", labels := [], capacity := [(VCoreKey, 200), (VMemoryKey, 8)] }

def exNode50 : Node :=
  { name := "n50", labels := [], capacity := [(VCoreKey, 50)] }

def exPodShare : Pod :=
  { name := "p"
    ns := "d"
    nodeName := ""
    phase := .Pending
    annots := []
    containers := [{ name := "c0", limits := [(VCoreKey, 10), (VMemoryKey, 1)] }] }

def exPodExcl : Pod :=
  { name := "q"
    ns := "d"
    nodeName := ""
    phase := .Pending
    annots := []
    containers := [{ name := "c0", limits := [(VCoreKey, 200), (VMemoryKey, 1)] }] }

def exPodPredicated : Pod :=
  { name := "r"
    ns := "d"
    nodeName := ""
    phase := .Pending
    annots := [(PredicateNodeKey, "a"), (PredicateTimeKey, "1")]
    containers := [{ name := "c0", limits := [(VCoreKey, 10), (VMemoryKey, 1)] }] }

def exCluster : Cluster := { nodes := [exNodeA, exNodeB], pods := [] }

/-- Patch attempts: terminal failure on node "a", immediate success elsewhere. -/
def exAttempts : String → Nat → PatchAttempt :=
  fun name _ => if name == "a" then .otherError else .success

def exPatchOk : String → Bool :=
  fun name => patchPodWithAnnots (exAttempts name)

def exContainerShare : Container :=
  { name := "c0", limits := [(VCoreKey, 10), (VMemoryKey, 1)] }

def exContainerExcl : Container :=
  { name := "c0", limits := [(VCoreKey, 200), (VMemoryKey, 1)] }

def exNodeM40 : Node :=
  { name := "m1"
    labels := [("gpu-model", "M40"), ("gpu-pool", "public")]
    capacity := [(VCoreKey, 100), (VMemoryKey, 4)] }

def exPodRunning : Pod :=
  { name := "u"
    ns := "d"
    nodeName := "m1"
    phase := .Running
    annots := []
    containers := [{ name := "c0", limits := [(VCoreKey, 100), (VMemoryKey, 4)] }] }

def exClusterQuota : Cluster := { nodes := [exNodeM40], pods := [exPodRunning] }

def exQuota : NamespaceQuota := { quota := [("M40", 1)], pool := [] }

/-! ## Order lemmas for the comparators -/

theorem charsLt_asymm : ∀ (a b : List Char), charsLt a b = true → charsLt b a = false
  | [], [] => by simp [charsLt]
  | [], _ :: _ => by simp [charsLt]
  | _ :: _, [] => by simp [charsLt]
  | x :: xs, y :: ys => by
    intro h
    simp only [charsLt] at h ⊢
    split_ifs at h ⊢ <;>
      first
      | rfl
      | omega
      | exact charsLt_asymm xs ys h

theorem charsLt_nltTrans :
    ∀ (a b c : List Char), charsLt a b = false → charsLt b c = false → charsLt a c = false
  | [], [], _ => by simp [charsLt]
  | [], _ :: _, _ => by simp [charsLt]
  | _ :: _, [], [] => by simp [charsLt]
  | _ :: _, [], _ :: _ => by simp [charsLt]
  | _ :: _, _ :: _, [] => by simp [charsLt]
  | x :: xs, y :: ys, z :: zs => by
    intro hab hbc
    simp only [charsLt] at hab hbc ⊢
    split_ifs at hab hbc ⊢ <;>
      first
      | rfl
      | omega
      | exact charsLt_nltTrans xs ys zs hab hbc

theorem devLess_iff (a b : DeviceInfo) :
    devLess a b = true ↔
      a.AllocatableCores < b.AllocatableCores ∨
      (a.AllocatableCores = b.AllocatableCores ∧
        (a.AllocatableMemory < b.AllocatableMemory ∨
         (a.AllocatableMemory = b.AllocatableMemory ∧ a.id < b.id))) := by
  unfold devLess
  repeat' split
  all_goals simp_all
  all_goals omega

theorem devLess_false_iff (a b : DeviceInfo) :
    devLess a b = false ↔
      ¬(a.AllocatableCores < b.AllocatableCores ∨
        (a.AllocatableCores = b.AllocatableCores ∧
          (a.AllocatableMemory < b.AllocatableMemory ∨
           (a.AllocatableMemory = b.AllocatableMemory ∧ a.id < b.id)))) := by
  rw [← devLess_iff]
  cases h : devLess a b <;> simp

theorem devLe_total : ∀ a b : DeviceInfo, devLe a b ∨ devLe b a := by
  intro a b
  unfold devLe
  rw [devLess_false_iff, devLess_false_iff]
  omega

theorem devLe_trans : ∀ a b c : DeviceInfo, devLe a b → devLe b c → devLe a c := by
  intro a b c hab hbc
  unfold devLe at *
  rw [devLess_false_iff] at *
  omega

theorem sortDevs_perm (l : List DeviceInfo) : (sortDevs l).Perm l :=
  List.perm_insertionSort devLe l

theorem sortDevs_sorted (l : List DeviceInfo) : (sortDevs l).Sorted devLe := by
  haveI : IsTotal DeviceInfo devLe := ⟨devLe_total⟩
  haveI : IsTrans DeviceInfo devLe := ⟨devLe_trans⟩
  exact List.sorted_insertionSort devLe l

theorem nodeLess_asymm (a b : NodeInfo) (h : nodeLess a b = true) : nodeLess b a = false := by
  unfold nodeLess nameLt at h ⊢
  split_ifs at h ⊢ <;> simp_all <;> try omega
  exact charsLt_asymm _ _ h

theorem nodeLe_total : ∀ a b : NodeInfo, nodeLe a b ∨ nodeLe b a := by
  intro a b
  unfold nodeLe
  cases h : nodeLess b a with
  | false => exact Or.inl rfl
  | true => exact Or.inr (nodeLess_asymm b a h)

theorem nodeLe_trans : ∀ a b c : NodeInfo, nodeLe a b → nodeLe b c → nodeLe a c := by
  intro a b c hab hbc
  unfold nodeLe nodeLess nameLt at *
  split_ifs at hab hbc ⊢ <;> simp_all <;> try omega
  exact charsLt_nltTrans _ _ _ hbc hab

theorem sortNodeInfos_perm (l : List NodeInfo) : (sortNodeInfos l).Perm l :=
  List.perm_insertionSort nodeLe l

theorem sortNodeInfos_sorted (l : List NodeInfo) : (sortNodeInfos l).Sorted nodeLe := by
  haveI : IsTotal NodeInfo nodeLe := ⟨nodeLe_total⟩
  haveI : IsTrans NodeInfo nodeLe := ⟨nodeLe_trans⟩
  exact List.sorted_insertionSort nodeLe l

/-! ## Field-preservation of the node views -/

theorem NodeInfo.AddUsedResources_fields (n n' : NodeInfo) (i c m : Nat)
    (h : n.AddUsedResources i c m = .ok n') : n'.node = n.node ∧ n'.name = n.name := by
  unfold NodeInfo.AddUsedResources at h
  split at h
  · exact absurd h (by simp)
  · split at h
    · exact absurd h (by simp)
    · cases h
      exact ⟨rfl, rfl⟩

theorem replayIdx_fields (dtm dc : Nat) (c : Container) (ni : NodeInfo) (idx : Int) :
    (replayIdx dtm dc c ni idx).node = ni.node ∧ (replayIdx dtm dc c ni idx).name = ni.name := by
  unfold replayIdx
  dsimp only
  split
  · exact ⟨rfl, rfl⟩
  · split
    · exact ⟨rfl, rfl⟩
    · split
      · exact ⟨rfl, rfl⟩
      · next ni' h => exact NodeInfo.AddUsedResources_fields _ _ _ _ _ h

theorem foldl_preserve {α β : Type} (f : β → α → β) (P : β → Prop)
    (hf : ∀ b a, P b → P (f b a)) : ∀ (l : List α) (b : β), P b → P (l.foldl f b) := by
  intro l
  induction l with
  | nil => intro b hb; exact hb
  | cons a t ih => intro b hb; exact ih (f b a) (hf b a hb)

theorem replayIdxs_fields (dtm dc : Nat) (c : Container) (ni : NodeInfo) (idxs : List Int) :
    (replayIdxs dtm dc c ni idxs).node = ni.node ∧ (replayIdxs dtm dc c ni idxs).name = ni.name := by
  unfold replayIdxs
  exact foldl_preserve _ (fun b => b.node = ni.node ∧ b.name = ni.name)
    (fun b idx hb =>
      ⟨(replayIdx_fields dtm dc c b idx).1.trans hb.1,
       (replayIdx_fields dtm dc c b idx).2.trans hb.2⟩)
    idxs ni ⟨rfl, rfl⟩

theorem replayPod_fields (dtm dc : Nat) (ni : NodeInfo) (pod : Pod) :
    (replayPod dtm dc ni pod).node = ni.node ∧ (replayPod dtm dc ni pod).name = ni.name := by
  unfold replayPod
  refine foldl_preserve _ (fun b => b.node = ni.node ∧ b.name = ni.name)
    (fun b ic hb => ?_) pod.containers.enum ni ⟨rfl, rfl⟩
  split
  · exact hb
  · exact ⟨(replayIdxs_fields dtm dc ic.2 b _).1.trans hb.1,
           (replayIdxs_fields dtm dc ic.2 b _).2.trans hb.2⟩

theorem NewNodeInfo_fields (node : Node) (pods : List Pod) :
    (NewNodeInfo node pods).node = node ∧ (NewNodeInfo node pods).name = node.name := by
  have gen : ∀ (dtm dc : Nat) (b : NodeInfo) (l : List Pod),
      (l.foldl (replayPod dtm dc) b).node = b.node ∧
      (l.foldl (replayPod dtm dc) b).name = b.name := by
    intro dtm dc b l
    exact foldl_preserve _ (fun x => x.node = b.node ∧ x.name = b.name)
      (fun x pod hb =>
        ⟨(replayPod_fields _ _ x pod).1.trans hb.1,
         (replayPod_fields _ _ x pod).2.trans hb.2⟩) l b ⟨rfl, rfl⟩
  simp only [NewNodeInfo]
  exact gen _ _ _ pods

/-! ## Patch retry loop -/

theorem pollPatch_allRetry (attempts : Nat → PatchAttempt)
    (h : ∀ k, ShouldRetry (attempts k) = true) :
    ∀ fuel k, pollPatch attempts fuel k = false := by
  intro fuel
  induction fuel with
  | zero => intro k; rfl
  | succ n ih =>
    intro k
    have hk := h k
    unfold pollPatch
    cases hak : attempts k <;> simp_all [ShouldRetry]

theorem patch_terminal_first (attempts : Nat → PatchAttempt)
    (h1 : attempts 0 ≠ PatchAttempt.success)
    (h2 : ShouldRetry (attempts 0) = false) :
    patchPodWithAnnots attempts = false := by
  unfold patchPodWithAnnots patchBudget
  show pollPatch attempts (10 + 1) 0 = false
  unfold pollPatch
  cases hak : attempts 0 <;> simp_all [ShouldRetry]

theorem patch_fails (attempts : Nat → PatchAttempt)
    (h : (attempts 0 ≠ PatchAttempt.success ∧ ShouldRetry (attempts 0) = false) ∨
         ∀ k, ShouldRetry (attempts k) = true) :
    patchPodWithAnnots attempts = false := by
  rcases h with ⟨h1, h2⟩ | h
  · exact patch_terminal_first attempts h1 h2
  · exact pollPatch_allRetry attempts h patchBudget 0

/-! ## The device filter walk -/

theorem walkNodes_true_acc (now : Nat) (pod : Pod) (patchOk : String → Bool) :
    ∀ l, (walkNodes now pod patchOk l true).1 = [] := by
  intro l
  induction l with
  | nil => rfl
  | cons i rest ih => simp [walkNodes, ih]

theorem walkNodes_true_fail (now : Nat) (pod : Pod) (patchOk : String → Bool) :
    ∀ l, ∀ i ∈ l,
      (i.GetName, "already been matched to another node") ∈ (walkNodes now pod patchOk l true).2 := by
  intro l
  induction l with
  | nil => intro i h; cases h
  | cons j rest ih =>
    intro i hi
    simp only [walkNodes]
    rcases List.mem_cons.mp hi with h | h
    · subst h; exact List.mem_cons_self _ _
    · exact List.mem_cons_of_mem _ (ih i h)

theorem walkNodes_false_acc (now : Nat) (pod : Pod) (patchOk : String → Bool) :
    ∀ l, (walkNodes now pod patchOk l false).1 =
      ((l.find? (allocPatchOk now pod patchOk)).map NodeInfo.GetNode).toList := by
  intro l
  induction l with
  | nil => rfl
  | cons i rest ih =>
    simp only [walkNodes]
    cases hA : Allocate now i pod with
    | error e =>
      have hp : allocPatchOk now pod patchOk i = false := by
        simp [allocPatchOk, hA, Except.isOk, Except.toBool]
      simp [List.find?_cons, hp, ih]
    | ok p =>
      cases hP : patchOk i.GetName with
      | true =>
        have hp : allocPatchOk now pod patchOk i = true := by
          simp [allocPatchOk, hA, hP, Except.isOk, Except.toBool]
        simp [List.find?_cons, hp, walkNodes_true_acc]
      | false =>
        have hp : allocPatchOk now pod patchOk i = false := by
          simp [allocPatchOk, hA, hP, Except.isOk, Except.toBool]
        simp [List.find?_cons, hp, ih]

theorem walkNodes_cons_false (now : Nat) (pod : Pod) (patchOk : String → Bool)
    (j : NodeInfo) (rest : List NodeInfo) :
    walkNodes now pod patchOk (j :: rest) false =
      match Allocate now j pod with
      | .error _ =>
        ((walkNodes now pod patchOk rest false).1,
         (j.GetName, "does not match with this node") :: (walkNodes now pod patchOk rest false).2)
      | .ok _ =>
        if patchOk j.GetName then
          (j.GetNode :: (walkNodes now pod patchOk rest true).1,
           (walkNodes now pod patchOk rest true).2)
        else
          ((walkNodes now pod patchOk rest false).1,
           (j.GetName, "update pod annotation failed") :: (walkNodes now pod patchOk rest false).2) := by
  rfl

theorem walkNodes_false_fail (now : Nat) (pod : Pod) (patchOk : String → Bool) :
    ∀ l, ∀ i ∈ l, l.find? (allocPatchOk now pod patchOk) ≠ some i →
      ∃ r, (i.GetName, r) ∈ (walkNodes now pod patchOk l false).2 := by
  intro l
  induction l with
  | nil => intro i h; cases h
  | cons j rest ih =>
    intro i hi hfind
    rw [walkNodes_cons_false]
    rcases List.mem_cons.mp hi with h | h
    · subst h
      have hp : allocPatchOk now pod patchOk i = false := by
        cases hp : allocPatchOk now pod patchOk i
        · rfl
        · exact absurd (by simp [List.find?_cons, hp]) hfind
      cases hA : Allocate now i pod with
      | error e =>
        exact ⟨"does not match with this node", List.mem_cons_self _ _⟩
      | ok p =>
        have hP : patchOk i.GetName = false := by
          simp [allocPatchOk, hA, Except.isOk, Except.toBool] at hp
          exact hp
        rw [hP]
        exact ⟨"update pod annotation failed", List.mem_cons_self _ _⟩
    · cases hp : allocPatchOk now pod patchOk j with
      | true =>
        cases hA : Allocate now j pod with
        | error e =>
          have hok : (Allocate now j pod).isOk = false := by
            simp [hA, Except.isOk, Except.toBool]
          simp [allocPatchOk, hok] at hp
        | ok p =>
          have hP : patchOk j.GetName = true := by
            simp [allocPatchOk, hA, Except.isOk, Except.toBool] at hp
            exact hp
          rw [hP]
          exact ⟨"already been matched to another node",
            walkNodes_true_fail now pod patchOk rest i h⟩
      | false =>
        have hfind' : rest.find? (allocPatchOk now pod patchOk) ≠ some i := by
          simpa [List.find?_cons, hp] using hfind
        obtain ⟨r, hr⟩ := ih i h hfind'
        cases hA : Allocate now j pod with
        | error e =>
          exact ⟨r, List.mem_cons_of_mem _ hr⟩
        | ok p =>
          have hP : patchOk j.GetName = false := by
            simp [allocPatchOk, hA, Except.isOk, Except.toBool] at hp
            exact hp
          rw [hP]
          exact ⟨r, List.mem_cons_of_mem _ hr⟩

theorem walkNodes_patchfail (now : Nat) (pod : Pod) (patchOk : String → Bool) :
    ∀ l i, l.find? (allocOk now pod) = some i → patchOk i.GetName = false →
      (i.GetName, "update pod annotation failed") ∈ (walkNodes now pod patchOk l false).2 := by
  intro l
  induction l with
  | nil => intro i h; cases h
  | cons j rest ih =>
    intro i hfind hP
    cases ha : allocOk now pod j with
    | true =>
      have hij : j = i := by
        rw [List.find?_cons_of_pos _ ha] at hfind
        exact Option.some.inj hfind
      subst hij
      simp only [walkNodes]
      cases hA : Allocate now j pod with
      | error e => simp [allocOk, hA, Except.isOk, Except.toBool] at ha
      | ok p =>
        simp only [hP]
        exact List.mem_cons_self _ _
    | false =>
      have hfind' : rest.find? (allocOk now pod) = some i := by
        rwa [List.find?_cons_of_neg _ (by simp [ha])] at hfind
      have hmem := ih i hfind' hP
      simp only [walkNodes]
      cases hA : Allocate now j pod with
      | error e => exact List.mem_cons_of_mem _ hmem
      | ok p => simp [allocOk, hA, Except.isOk, Except.toBool] at ha

theorem deviceFilter_eq (cluster : Cluster) (patchOk : String → Bool) (now : Nat)
    (pod : Pod) (nodes : List Node) (hpred : isPredicated pod = false) :
    deviceFilter cluster patchOk now pod nodes =
      ((walkNodes now pod patchOk (sortNodeInfos (candidateInfos cluster nodes)) false).1,
       ((nodes.filter (fun n => !IsGPUEnabledNode n)).map (fun n => (n.name, "no GPU device"))) ++
         (walkNodes now pod patchOk (sortNodeInfos (candidateInfos cluster nodes)) false).2) := by
  simp [deviceFilter, hpred]

/-! ## Claim theorems -/

/-- Claim C1: for a GPU-requesting, not-yet-predicated pod, the device filter
builds node views for the GPU-capable candidates, sorts them ascending by the
lexicographic comparator (availableCores, availableMemory, name), and the
accepted list is exactly the first sorted node view on which allocation and
the annotation patch both succeed (hence at most one node); every candidate
node that is not accepted appears in the failed-nodes map with a reason. -/
theorem C1_device_filter_first_fit (cluster : Cluster) (patchOk : String → Bool)
    (now : Nat) (pod : Pod) (nodes : List Node)
    (hpred : isPredicated pod = false) :
    (deviceFilter cluster patchOk now pod nodes).1 =
      (((sortNodeInfos (candidateInfos cluster nodes)).find? (allocPatchOk now pod patchOk)).map
        NodeInfo.GetNode).toList ∧
    (deviceFilter cluster patchOk now pod nodes).1.length ≤ 1 ∧
    (sortNodeInfos (candidateInfos cluster nodes)).Sorted nodeLe ∧
    (sortNodeInfos (candidateInfos cluster nodes)).Perm (candidateInfos cluster nodes) ∧
    (∀ n ∈ nodes, n ∉ (deviceFilter cluster patchOk now pod nodes).1 →
      ∃ r, (n.name, r) ∈ (deviceFilter cluster patchOk now pod nodes).2) := by
  have hacc : (deviceFilter cluster patchOk now pod nodes).1 =
      (((sortNodeInfos (candidateInfos cluster nodes)).find? (allocPatchOk now pod patchOk)).map
        NodeInfo.GetNode).toList := by
    rw [deviceFilter_eq cluster patchOk now pod nodes hpred]
    exact walkNodes_false_acc now pod patchOk _
  refine ⟨hacc, ?_, sortNodeInfos_sorted _, sortNodeInfos_perm _, ?_⟩
  · rw [hacc]
    cases (sortNodeInfos (candidateInfos cluster nodes)).find? (allocPatchOk now pod patchOk) <;>
      simp
  · intro n hn hnot
    rw [deviceFilter_eq cluster patchOk now pod nodes hpred]
    by_cases hg : IsGPUEnabledNode n = true
    · -- GPU-capable candidate: its node view is in the sorted list
      have hinfo : NewNodeInfo n (ListPodsOnNode cluster n) ∈ candidateInfos cluster nodes := by
        unfold candidateInfos
        exact List.mem_map_of_mem _ (List.mem_filter.mpr ⟨hn, hg⟩)
      have hsortmem : NewNodeInfo n (ListPodsOnNode cluster n) ∈
          sortNodeInfos (candidateInfos cluster nodes) :=
        (sortNodeInfos_perm _).mem_iff.mpr hinfo
      have hfind : (sortNodeInfos (candidateInfos cluster nodes)).find?
          (allocPatchOk now pod patchOk) ≠ some (NewNodeInfo n (ListPodsOnNode cluster n)) := by
        intro hEq
        apply hnot
        rw [hacc, hEq]
        have : (NewNodeInfo n (ListPodsOnNode cluster n)).GetNode = n :=
          (NewNodeInfo_fields n _).1
        simp [this]
      obtain ⟨r, hr⟩ := walkNodes_false_fail now pod patchOk _ _ hsortmem hfind
      have hname : (NewNodeInfo n (ListPodsOnNode cluster n)).GetName = n.name :=
        (NewNodeInfo_fields n _).2
      rw [hname] at hr
      exact ⟨r, List.mem_append_right _ hr⟩
    · -- not GPU-capable: failed with "no GPU device"
      refine ⟨"no GPU device", List.mem_append_left _ ?_⟩
      have : n ∈ nodes.filter (fun n => !IsGPUEnabledNode n) :=
        List.mem_filter.mpr ⟨hn, by simp [hg]⟩
      exact List.mem_map_of_mem _ this

/-- Witness for C1 at a concrete input: two identical free nodes, an
always-succeeding patch; the accepted list is the first-fit node of the
sorted walk. -/
theorem C1_witness :
    (deviceFilter exCluster (fun _ => true) 7 exPodShare [exNodeA, exNodeB]).1 =
      (((sortNodeInfos (candidateInfos exCluster [exNodeA, exNodeB])).find?
          (allocPatchOk 7 exPodShare (fun _ => true))).map NodeInfo.GetNode).toList :=
  (C1_device_filter_first_fit exCluster (fun _ => true) 7 exPodShare [exNodeA, exNodeB]
    (by decide)).1

/-- Claim C2: a pod already bearing any predicate annotation (a key containing
the gpu-assigned, predicate-time or predicate-gpu-idx- substring) is never
accepted: the device filter's accepted list is empty, and for a GPU-requesting
pod the whole pipeline returns an empty accepted-node list. -/
theorem C2_predicated_never_accepted (cluster : Cluster) (patchOk : String → Bool)
    (now : Nat) (pod : Pod) (nodes : List Node) (modelLabel poolLabel : String)
    (st : GPUFilterState)
    (hpred : isPredicated pod = true) :
    (deviceFilter cluster patchOk now pod nodes).1 = [] ∧
    (IsGPURequiredPod pod = true →
      (Filter modelLabel poolLabel st cluster patchOk now pod nodes).nodes = []) := by
  constructor
  · simp [deviceFilter, hpred]
  · intro hgpu
    unfold Filter
    rw [hgpu]
    simp only [Bool.not_true, Bool.false_eq_true, if_false]
    split
    · rfl
    · simp [deviceFilter, hpred]

/-- Witness for C2: a concrete pod carrying a predicate-time annotation. -/
theorem C2_witness :
    (deviceFilter exCluster (fun _ => true) 7 exPodPredicated [exNodeA, exNodeB]).1 = [] ∧
    (IsGPURequiredPod exPodPredicated = true →
      (Filter "m" "p" { quota := [], quotaLastSyncedRevision := "v1" } exCluster
        (fun _ => true) 7 exPodPredicated [exNodeA, exNodeB]).nodes = []) :=
  C2_predicated_never_accepted exCluster (fun _ => true) 7 exPodPredicated
    [exNodeA, exNodeB] "m" "p" { quota := [], quotaLastSyncedRevision := "v1" } (by decide)

/-- Claim C3 counterexample: two fitting nodes; the patch on the chosen
(first-sorted) node "a" fails terminally on the first attempt (an error other
than Conflict/ServerTimeout), yet the call accepts node "b" — the claim's
"the accepted-node list of the whole call is empty" is false. -/
theorem C3_counterexample :
    ShouldRetry (exAttempts "a" 0) = false ∧
    exAttempts "a" 0 ≠ PatchAttempt.success ∧
    (sortNodeInfos (candidateInfos exCluster [exNodeA, exNodeB])).find?
        (allocOk 7 exPodShare) = some (NewNodeInfo exNodeA []) ∧
    (NewNodeInfo exNodeA []).GetName = "a" ∧
    (deviceFilter exCluster exPatchOk 7 exPodShare [exNodeA, exNodeB]).2.lookup "a" =
      some "update pod annotation failed" ∧
    (deviceFilter exCluster exPatchOk 7 exPodShare [exNodeA, exNodeB]).1 = [exNodeB] := by
  decide

/-- Claim C3, amended: when the annotation patch fails terminally (first
attempt is an error other than Conflict/ServerTimeout, or every attempt within
the budget is retryable) on the first sorted node whose allocation succeeds,
that node is marked failed with "update pod annotation failed" and is not the
accepted node; the walk continues, and the accepted list is the first sorted
node on which allocation and patch both succeed (empty iff there is none). -/
theorem C3_patch_failure_continues (cluster : Cluster)
    (attemptsFor : String → Nat → PatchAttempt) (now : Nat) (pod : Pod)
    (nodes : List Node) (info : NodeInfo)
    (hpred : isPredicated pod = false)
    (hfind : (sortNodeInfos (candidateInfos cluster nodes)).find? (allocOk now pod) = some info)
    (hterm : (attemptsFor info.GetName 0 ≠ PatchAttempt.success ∧
              ShouldRetry (attemptsFor info.GetName 0) = false) ∨
             (∀ k, ShouldRetry (attemptsFor info.GetName k) = true)) :
    (info.GetName, "update pod annotation failed") ∈
      (deviceFilter cluster (fun name => patchPodWithAnnots (attemptsFor name)) now pod nodes).2 ∧
    (deviceFilter cluster (fun name => patchPodWithAnnots (attemptsFor name)) now pod nodes).1 =
      (((sortNodeInfos (candidateInfos cluster nodes)).find?
          (allocPatchOk now pod (fun name => patchPodWithAnnots (attemptsFor name)))).map
        NodeInfo.GetNode).toList := by
  have hP : patchPodWithAnnots (attemptsFor info.GetName) = false :=
    patch_fails (attemptsFor info.GetName) hterm
  constructor
  · rw [deviceFilter_eq cluster _ now pod nodes hpred]
    exact List.mem_append_right _
      (walkNodes_patchfail now pod _ _ info hfind hP)
  · rw [deviceFilter_eq cluster _ now pod nodes hpred]
    exact walkNodes_false_acc now pod _ _

/-- Witness for the amended C3 at the counterexample input. -/
theorem C3_witness :
    ((NewNodeInfo exNodeA []).GetName, "update pod annotation failed") ∈
      (deviceFilter exCluster (fun name => patchPodWithAnnots (exAttempts name)) 7
        exPodShare [exNodeA, exNodeB]).2 :=
  (C3_patch_failure_continues exCluster exAttempts 7 exPodShare [exNodeA, exNodeB]
    (NewNodeInfo exNodeA []) (by decide) (by decide)
    (Or.inl ⟨by decide, by decide⟩)).1

/-- Claim C9: a GPU-requesting pod is rejected whole-call with a retry-later
error while the quota store has never synced (empty revision); a "not found"
configmap read counts as a completed sync (it clears the quota to empty and
sets revision "none"), after which calls are not blocked by the gate. -/
theorem C9_cold_start_gate (modelLabel poolLabel : String) (st : GPUFilterState)
    (cluster : Cluster) (patchOk : String → Bool) (now : Nat)
    (pod : Pod) (nodes : List Node)
    (hgpu : IsGPURequiredPod pod = true) (hsync : st.quotaLastSyncedRevision = "") :
    Filter modelLabel poolLabel st cluster patchOk now pod nodes =
      { nodes := [], failedNodes := [],
        error := some "GPU quota has not been synced, please retry later" } ∧
    (syncQuota st ConfigMapResult.notFound).quotaLastSyncedRevision = "none" ∧
    (syncQuota st ConfigMapResult.notFound).quota = [] ∧
    (∀ (pod2 : Pod) (nodes2 : List Node), IsGPURequiredPod pod2 = true →
      (Filter modelLabel poolLabel (syncQuota st ConfigMapResult.notFound) cluster patchOk
        now pod2 nodes2).error = none) := by
  refine ⟨?_, rfl, rfl, ?_⟩
  · simp [Filter, hgpu, hsync]
  · intro pod2 nodes2 h2
    simp [Filter, h2, syncQuota]

/-- Witness for C9 at a concrete cold-start state. -/
theorem C9_witness :
    Filter "m" "p" { quota := [], quotaLastSyncedRevision := "" } exCluster
        (fun _ => true) 7 exPodShare [exNodeA, exNodeB] =
      { nodes := [], failedNodes := [],
        error := some "GPU quota has not been synced, please retry later" } :=
  (C9_cold_start_gate "m" "p" { quota := [], quotaLastSyncedRevision := "" } exCluster
    (fun _ => true) 7 exPodShare [exNodeA, exNodeB] (by decide) (by decide)).1

/-- Claim C10 counterexample: a node with vcuda-core capacity 50 passes the
IsGPUEnabledNode guard (capacity > 0) yet its computed device count
capacity/100 is zero, so the guard does not protect the
nodeTotalMemory / deviceCount divisions. -/
theorem C10_counterexample :
    IsGPUEnabledNode exNode50 = true ∧ GetGPUDeviceCountOfNode exNode50 = 0 := by
  decide

/-- Claim C10, amended: the device count capacity/100 is nonzero exactly when
the vcuda-core capacity is at least 100 — a strictly stronger condition than
the IsGPUEnabledNode guard (capacity > 0), which it implies; totality of the
divisions in NewNodeInfo and AllocateOne therefore needs capacity ≥ 100. -/
theorem C10_device_count_positive_iff (node : Node) :
    (0 < GetGPUDeviceCountOfNode node ↔ HundredCore ≤ GetCapacityOfNode node VCoreKey) ∧
    (HundredCore ≤ GetCapacityOfNode node VCoreKey → IsGPUEnabledNode node = true) := by
  unfold IsGPUEnabledNode GetGPUDeviceCountOfNode GetCapacityOfNode HundredCore
  cases h : node.capacity.lookup VCoreKey with
  | none => simp
  | some v =>
    simp only [h, Option.getD_some]
    constructor
    · constructor
      · intro hv
        by_contra hlt
        push_neg at hlt
        rw [Nat.div_eq_of_lt hlt] at hv
        exact Nat.lt_irrefl 0 hv
      · intro hv
        exact Nat.div_pos hv (by norm_num)
    · intro hv
      exact decide_eq_true (by omega)

theorem DeviceInfo.AddUsedResources_ok (dev : DeviceInfo) (c m : Nat) (d' : DeviceInfo)
    (h : dev.AddUsedResources c m = .ok d') :
    c + dev.usedCore ≤ HundredCore ∧ m + dev.usedMemory ≤ dev.totalMemory ∧
    d' = { dev with usedCore := dev.usedCore + c, usedMemory := dev.usedMemory + m } := by
  unfold DeviceInfo.AddUsedResources at h
  split at h
  · exact absurd h (by simp)
  · split at h
    · exact absurd h (by simp)
    · cases h
      exact ⟨by omega, by omega, rfl⟩

theorem DeviceInfo.AddUsedResources_isOk (dev : DeviceInfo) (c m : Nat) :
    (dev.AddUsedResources c m).isOk = true ↔
      dev.usedCore + c ≤ HundredCore ∧ dev.usedMemory + m ≤ dev.totalMemory := by
  unfold DeviceInfo.AddUsedResources
  split_ifs with h1 h2 <;> simp [Except.isOk, Except.toBool] <;> omega

theorem applyReserves_inv (ops : List (Nat × Nat)) :
    ∀ d : DeviceInfo, d.usedCore ≤ HundredCore → d.usedMemory ≤ d.totalMemory →
      (applyReserves d ops).usedCore ≤ HundredCore ∧
      (applyReserves d ops).usedMemory ≤ (applyReserves d ops).totalMemory := by
  induction ops with
  | nil => intro d h1 h2; exact ⟨h1, h2⟩
  | cons op rest ih =>
    intro d h1 h2
    obtain ⟨c, m⟩ := op
    show (applyReserves _ (( c, m) :: rest)).usedCore ≤ _ ∧ _
    unfold applyReserves
    cases hA : d.AddUsedResources c m with
    | error e => exact ih d h1 h2
    | ok d' =>
      obtain ⟨hc, hm, hd⟩ := DeviceInfo.AddUsedResources_ok d c m d' hA
      subst hd
      exact ih _ (by simpa using by omega) (by simpa using by omega)

/-- Claim C7: a device reservation fails exactly when one of the two ceilings
would be exceeded; on success both counters are incremented by the request; on
failure the caller's device is unchanged; consequently usedCore ≤ 100 and
usedMemory ≤ totalMemory hold after every sequence of reserve calls on a
freshly constructed device. -/
theorem C7_device_reserve (dev : DeviceInfo) (c m : Nat) :
    ((dev.AddUsedResources c m).isOk = true ↔
      (dev.usedCore + c ≤ HundredCore ∧ dev.usedMemory + m ≤ dev.totalMemory)) ∧
    (∀ d', dev.AddUsedResources c m = .ok d' →
      d' = { dev with usedCore := dev.usedCore + c, usedMemory := dev.usedMemory + m }) ∧
    ((dev.AddUsedResources c m).isOk = false → applyReserves dev [(c, m)] = dev) ∧
    (∀ (id tm : Nat) (ops : List (Nat × Nat)),
      (applyReserves (newDeviceInfo id tm) ops).usedCore ≤ HundredCore ∧
      (applyReserves (newDeviceInfo id tm) ops).usedMemory ≤
        (applyReserves (newDeviceInfo id tm) ops).totalMemory) := by
  refine ⟨DeviceInfo.AddUsedResources_isOk dev c m, ?_, ?_, ?_⟩
  · intro d' h
    exact (DeviceInfo.AddUsedResources_ok dev c m d' h).2.2
  · intro h
    unfold applyReserves
    cases hA : dev.AddUsedResources c m with
    | error e => rfl
    | ok d' => rw [hA] at h; simp [Except.isOk, Except.toBool] at h
  · intro id tm ops
    exact applyReserves_inv ops (newDeviceInfo id tm) (by simp [newDeviceInfo])
      (by simp [newDeviceInfo])

/-- Witness for C7 at a concrete device and request. -/
theorem C7_witness :
    ((newDeviceInfo 0 4).AddUsedResources 10 1).isOk = true ↔
      ((newDeviceInfo 0 4).usedCore + 10 ≤ HundredCore ∧
       (newDeviceInfo 0 4).usedMemory + 1 ≤ (newDeviceInfo 0 4).totalMemory) :=
  (C7_device_reserve (newDeviceInfo 0 4) 10 1).1

/-- Witness for the amended C10 at a concrete node. -/
theorem C10_witness :
    0 < GetGPUDeviceCountOfNode exNodeA ↔ HundredCore ≤ GetCapacityOfNode exNodeA VCoreKey :=
  (C10_device_count_positive_iff exNodeA).1

/-- Claim C5: in share mode (0 < cores < 100) the allocator sorts all devices
of the node ascending by (allocatableCores, allocatableMemory, id) and returns
exactly the first device in that order satisfying the request — at most one
device, so a request no single device can satisfy fails even when the summed
free capacity would suffice. -/
theorem C5_share_mode (ni : NodeInfo) (c : Container)
    (h1 : 0 < GetGPUResourceOfContainer c VCoreKey)
    (h2 : GetGPUResourceOfContainer c VCoreKey < HundredCore) :
    shareModeEvaluate ni (GetGPUResourceOfContainer c VCoreKey)
        (GetGPUResourceOfContainer c VMemoryKey) =
      ((sortDevs ni.devs).find? (fun d =>
        GetGPUResourceOfContainer c VCoreKey ≤ d.AllocatableCores &&
        GetGPUResourceOfContainer c VMemoryKey ≤ d.AllocatableMemory)).toList ∧
    (shareModeEvaluate ni (GetGPUResourceOfContainer c VCoreKey)
        (GetGPUResourceOfContainer c VMemoryKey)).length ≤ 1 ∧
    (sortDevs ni.devs).Sorted devLe ∧
    (sortDevs ni.devs).Perm ni.devs ∧
    ((∀ d ∈ ni.devs, ¬(GetGPUResourceOfContainer c VCoreKey ≤ d.AllocatableCores ∧
        GetGPUResourceOfContainer c VMemoryKey ≤ d.AllocatableMemory)) →
      ∃ e, AllocateOne ni c = .error e) := by
  have heval : shareModeEvaluate ni (GetGPUResourceOfContainer c VCoreKey)
        (GetGPUResourceOfContainer c VMemoryKey) =
      ((sortDevs ni.devs).find? (fun d =>
        GetGPUResourceOfContainer c VCoreKey ≤ d.AllocatableCores &&
        GetGPUResourceOfContainer c VMemoryKey ≤ d.AllocatableMemory)).toList := by
    unfold shareModeEvaluate
    cases hf : (sortDevs ni.devs).find? (fun d =>
        GetGPUResourceOfContainer c VCoreKey ≤ d.AllocatableCores &&
        GetGPUResourceOfContainer c VMemoryKey ≤ d.AllocatableMemory) <;>
      simp [hf]
  refine ⟨heval, ?_, sortDevs_sorted _, sortDevs_perm _, ?_⟩
  · rw [heval]
    cases (sortDevs ni.devs).find? (fun d =>
        GetGPUResourceOfContainer c VCoreKey ≤ d.AllocatableCores &&
        GetGPUResourceOfContainer c VMemoryKey ≤ d.AllocatableMemory) <;> simp
  · intro hnone
    have hfind : (sortDevs ni.devs).find? (fun d =>
        GetGPUResourceOfContainer c VCoreKey ≤ d.AllocatableCores &&
        GetGPUResourceOfContainer c VMemoryKey ≤ d.AllocatableMemory) = none := by
      apply List.find?_eq_none.mpr
      intro d hd
      have hd' : d ∈ ni.devs := (sortDevs_perm ni.devs).mem_iff.mp hd
      intro hcontra
      simp only [Bool.and_eq_true, decide_eq_true_eq] at hcontra
      exact hnone d hd' hcontra
    have hempty : shareModeEvaluate ni (GetGPUResourceOfContainer c VCoreKey)
        (GetGPUResourceOfContainer c VMemoryKey) = [] := by
      rw [heval, hfind]; rfl
    refine ⟨"failed to allocate for container " ++ c.name, ?_⟩
    unfold AllocateOne
    simp only [h2, if_true, hempty, List.isEmpty_nil, if_pos]

/-- Witness for C5 at a concrete share-mode request. -/
theorem C5_witness :
    shareModeEvaluate (NewNodeInfo exNodeA [])
        (GetGPUResourceOfContainer exContainerShare VCoreKey)
        (GetGPUResourceOfContainer exContainerShare VMemoryKey) =
      (((sortDevs (NewNodeInfo exNodeA []).devs)).find? (fun d =>
        GetGPUResourceOfContainer exContainerShare VCoreKey ≤ d.AllocatableCores &&
        GetGPUResourceOfContainer exContainerShare VMemoryKey ≤ d.AllocatableMemory)).toList :=
  (C5_share_mode (NewNodeInfo exNodeA []) exContainerShare (by decide) (by decide)).1

/-! ## Exclusive mode -/

theorem exclusivePick_eq : ∀ (l : List DeviceInfo) (num : Nat),
    exclusivePick num l =
      ((l.filter (fun d => d.AllocatableCores = HundredCore)).take num,
       num - (l.filter (fun d => d.AllocatableCores = HundredCore)).length) := by
  intro l
  induction l with
  | nil => intro num; simp [exclusivePick]
  | cons d rest ih =>
    intro num
    cases num with
    | zero => simp [exclusivePick]
    | succ k =>
      unfold exclusivePick
      rw [if_neg (Nat.succ_ne_zero k)]
      by_cases hfree : d.AllocatableCores = HundredCore
      · rw [if_pos hfree]
        have hfc : (d :: rest).filter (fun d => d.AllocatableCores = HundredCore) =
            d :: rest.filter (fun d => d.AllocatableCores = HundredCore) := by
          simp [List.filter_cons, hfree]
        simp only [Nat.add_sub_cancel, ih, hfc, List.take_succ_cons, List.length_cons,
          Prod.mk.injEq]
        exact ⟨trivial, by omega⟩
      · rw [if_neg hfree]
        have hfc : (d :: rest).filter (fun d => d.AllocatableCores = HundredCore) =
            rest.filter (fun d => d.AllocatableCores = HundredCore) := by
          simp [List.filter_cons, hfree]
        rw [ih, hfc]

theorem exclusiveModeEvaluate_eq (ni : NodeInfo) (cores : Nat) :
    exclusiveModeEvaluate ni cores =
      if (freeDevs ni).length < cores / HundredCore then []
      else (freeDevs ni).take (cores / HundredCore) := by
  unfold exclusiveModeEvaluate freeDevs
  dsimp only
  rw [exclusivePick_eq]
  dsimp only
  split_ifs with h1 h2 <;> first | rfl | omega

theorem freeDevs_free (ni : NodeInfo) : ∀ d ∈ freeDevs ni, d.AllocatableCores = HundredCore := by
  intro d hd
  have := List.mem_filter.mp hd
  simpa using this.2

theorem NodeInfo.AddUsedResources_ok_devs (n : NodeInfo) (devID vc vm : Nat) (n' : NodeInfo)
    (h : n.AddUsedResources devID vc vm = .ok n') :
    ∃ dev dev', n.devs[devID]? = some dev ∧ dev.AddUsedResources vc vm = .ok dev' ∧
      n'.devs = n.devs.set devID dev' := by
  unfold NodeInfo.AddUsedResources at h
  split at h
  · exact absurd h (by simp)
  · next dev hdev =>
    split at h
    · exact absurd h (by simp)
    · next dev' hdev' =>
      cases h
      exact ⟨dev, dev', hdev, hdev', rfl⟩

theorem chargeAll_ok_spec : ∀ (ds : List DeviceInfo) (ni ni' : NodeInfo) (vc vm : Nat),
    chargeAll ni ds vc vm = .ok ni' →
    (∀ d ∈ ds, ni.devs[d.id]? = some d) →
    (ds.map DeviceInfo.GetID).Nodup →
    (∀ k, k ∉ ds.map DeviceInfo.GetID → ni'.devs[k]? = ni.devs[k]?) ∧
    (∀ d ∈ ds, ni'.devs[d.id]? = some (chargedDev d vc vm)) ∧
    ni'.devs.length = ni.devs.length := by
  intro ds
  induction ds with
  | nil =>
    intro ni ni' vc vm h _ _
    cases h
    exact ⟨fun k _ => rfl, fun d hd => absurd hd (List.not_mem_nil d), rfl⟩
  | cons d rest ih =>
    intro ni ni' vc vm h hpos hnd
    unfold chargeAll at h
    cases hA : ni.AddUsedResources d.id vc vm with
    | error e => rw [hA] at h; exact absurd h (by simp)
    | ok ni1 =>
      rw [hA] at h
      obtain ⟨dev, dev', hdev, hdev', hdevs⟩ := NodeInfo.AddUsedResources_ok_devs ni d.id vc vm ni1 hA
      have hdd : dev = d := by
        have hthis := hpos d (List.mem_cons_self d rest)
        rw [hdev] at hthis
        exact Option.some.inj hthis
      rw [hdd] at hdev'
      obtain rfl : dev' = chargedDev d vc vm :=
        (DeviceInfo.AddUsedResources_ok d vc vm dev' hdev').2.2
      have hlt : d.id < ni.devs.length := (List.getElem?_eq_some_iff.mp hdev).1
      have hndrest : (rest.map DeviceInfo.GetID).Nodup := (List.nodup_cons.mp hnd).2
      have hnotin : d.id ∉ rest.map DeviceInfo.GetID := (List.nodup_cons.mp hnd).1
      have hposrest : ∀ d' ∈ rest, ni1.devs[d'.id]? = some d' := by
        intro d' hd'
        rw [hdevs]
        have hne : d.id ≠ d'.id := by
          intro hEq
          exact hnotin (hEq ▸ List.mem_map_of_mem DeviceInfo.GetID hd')
        rw [List.getElem?_set_ne hne]
        exact hpos d' (List.mem_cons_of_mem d hd')
      obtain ⟨hunch, hchg, hlen⟩ := ih ni1 ni' vc vm h hposrest hndrest
      have hlen1 : ni1.devs.length = ni.devs.length := by rw [hdevs, List.length_set]
      refine ⟨?_, ?_, by rw [hlen, hlen1]⟩
      · intro k hk
        have hk1 : k ∉ rest.map DeviceInfo.GetID := fun hmem =>
          hk (List.mem_cons_of_mem _ hmem)
        have hkd : d.id ≠ k := fun hEq => hk (hEq ▸ List.mem_cons_self _ _)
        rw [hunch k hk1, hdevs, List.getElem?_set_ne hkd]
      · intro d' hd'
        rcases List.mem_cons.mp hd' with hEq | hmem
        · subst hEq
          rw [hunch d'.id hnotin, hdevs]
          exact List.getElem?_set_self hlt
        · exact hchg d' hmem

theorem WellIndexed_getElem (ni : NodeInfo) (hw : WellIndexed ni) :
    ∀ d ∈ ni.devs, ni.devs[d.id]? = some d := by
  intro d hd
  obtain ⟨k, hk, hget⟩ := List.getElem_of_mem hd
  have hmapk : (ni.devs.map DeviceInfo.GetID)[k]? = some d.id := by
    rw [List.getElem?_map]
    rw [List.getElem?_eq_getElem hk, hget]
    rfl
  rw [hw, List.getElem?_range (by simpa using hk)] at hmapk
  have hkid : k = d.id := Option.some.inj hmapk
  rw [← hkid, List.getElem?_eq_getElem hk, hget]

theorem WellIndexed_nodup (ni : NodeInfo) (hw : WellIndexed ni) :
    (ni.devs.map DeviceInfo.GetID).Nodup := by
  rw [hw]; exact List.nodup_range _

theorem freeDevs_take_mem (ni : NodeInfo) (n : Nat) :
    ∀ d ∈ (freeDevs ni).take n, d ∈ ni.devs := by
  intro d hd
  have h1 : d ∈ freeDevs ni := (List.take_sublist n _).mem hd
  have h2 : d ∈ sortDevs ni.devs := (List.filter_sublist _).mem h1
  exact (sortDevs_perm ni.devs).mem_iff.mp h2

theorem freeDevs_take_nodup (ni : NodeInfo) (hw : WellIndexed ni) (n : Nat) :
    (((freeDevs ni).take n).map DeviceInfo.GetID).Nodup := by
  have h0 : (ni.devs.map DeviceInfo.GetID).Nodup := WellIndexed_nodup ni hw
  have h1 : ((sortDevs ni.devs).map DeviceInfo.GetID).Nodup :=
    (((sortDevs_perm ni.devs).map DeviceInfo.GetID).nodup_iff).mpr h0
  have h2 : ((freeDevs ni).map DeviceInfo.GetID).Nodup :=
    ((List.filter_sublist _).map DeviceInfo.GetID).nodup h1
  exact ((List.take_sublist n _).map DeviceInfo.GetID).nodup h2

/-- Claim C4: in exclusive mode (cores = n·100, n ≥ 1) the allocator sorts the
node's devices by (allocatableCores, allocatableMemory, id) and returns the
first n devices that are completely free (allocatableCores exactly 100); with
fewer than n free devices it fails with an empty device set; on success each
chosen device is charged 100 cores and the full per-device memory
deviceTotalMemory, regardless of the container's requested memory, and every
other device is untouched. -/
theorem C4_exclusive_mode (ni : NodeInfo) (c : Container) (n : Nat)
    (hw : WellIndexed ni)
    (hc : GetGPUResourceOfContainer c VCoreKey = n * HundredCore)
    (hn : 0 < n) :
    (exclusiveModeEvaluate ni (GetGPUResourceOfContainer c VCoreKey) =
      if (freeDevs ni).length < n then [] else (freeDevs ni).take n) ∧
    (∀ d ∈ freeDevs ni, d.AllocatableCores = HundredCore) ∧
    (sortDevs ni.devs).Sorted devLe ∧
    (sortDevs ni.devs).Perm ni.devs ∧
    ((freeDevs ni).length < n → ∃ e, AllocateOne ni c = .error e) ∧
    (∀ devs ni', AllocateOne ni c = .ok (devs, ni') →
      devs = (freeDevs ni).take n ∧
      (∀ d ∈ devs,
        ni'.devs[d.id]? = some (chargedDev d HundredCore (deviceTotalMemoryOf ni.GetNode))) ∧
      (∀ k, k ∉ devs.map DeviceInfo.GetID → ni'.devs[k]? = ni.devs[k]?)) := by
  have hdiv : n * HundredCore / HundredCore = n := Nat.mul_div_cancel n (by decide)
  have heval : exclusiveModeEvaluate ni (GetGPUResourceOfContainer c VCoreKey) =
      if (freeDevs ni).length < n then [] else (freeDevs ni).take n := by
    rw [hc, exclusiveModeEvaluate_eq, hdiv]
  have hshared : ¬(GetGPUResourceOfContainer c VCoreKey < HundredCore) := by
    rw [hc]
    have h1 : 1 * HundredCore ≤ n * HundredCore := Nat.mul_le_mul_right HundredCore hn
    omega
  refine ⟨heval, freeDevs_free ni, sortDevs_sorted _, sortDevs_perm _, ?_, ?_⟩
  · intro hlen
    refine ⟨"failed to allocate for container " ++ c.name, ?_⟩
    unfold AllocateOne
    dsimp only
    simp only [if_neg hshared]
    rw [heval, if_pos hlen]
    rfl
  · intro devs ni' hA
    unfold AllocateOne at hA
    dsimp only at hA
    simp only [if_neg hshared] at hA
    rw [heval] at hA
    by_cases hlen : (freeDevs ni).length < n
    · rw [if_pos hlen] at hA
      exact absurd hA (by simp)
    · rw [if_neg hlen] at hA
      have hne : ¬(((freeDevs ni).take n).isEmpty = true) := by
        have hlt : ((freeDevs ni).take n).length = n := by
          rw [List.length_take]; omega
        intro hcontra
        rw [List.isEmpty_iff] at hcontra
        rw [hcontra] at hlt
        simp at hlt
        omega
      rw [if_neg hne] at hA
      cases hC : chargeAll ni ((freeDevs ni).take n) HundredCore
          (GetCapacityOfNode ni.GetNode VMemoryKey / GetGPUDeviceCountOfNode ni.GetNode) with
      | error e =>
        rw [hC] at hA
        exact absurd hA (by simp)
      | ok ni2 =>
        rw [hC] at hA
        have hpair := Except.ok.inj hA
        have hdevs : devs = (freeDevs ni).take n := (Prod.mk.injEq _ _ _ _ ▸ hpair).1.symm
        have hni : ni2 = ni' := (Prod.mk.injEq _ _ _ _ ▸ hpair).2
        subst hni
        obtain ⟨hunch, hchg, _⟩ := chargeAll_ok_spec ((freeDevs ni).take n) ni ni2 HundredCore
          (GetCapacityOfNode ni.GetNode VMemoryKey / GetGPUDeviceCountOfNode ni.GetNode) hC
          (fun d hd => WellIndexed_getElem ni hw d (freeDevs_take_mem ni n d hd))
          (freeDevs_take_nodup ni hw n)
        subst hdevs
        exact ⟨rfl, hchg, hunch⟩

/-- Witness for C4: a fresh two-device node and a 200-vcore container. -/
theorem C4_witness :
    exclusiveModeEvaluate (NewNodeInfo exNodeC [])
        (GetGPUResourceOfContainer exContainerExcl VCoreKey) =
      if (freeDevs (NewNodeInfo exNodeC [])).length < 2 then []
      else (freeDevs (NewNodeInfo exNodeC [])).take 2 :=
  (C4_exclusive_mode (NewNodeInfo exNodeC []) exContainerExcl 2 (by decide) (by decide)
    (by decide)).1

/-- Claim C6: in the NodeView replay (`NewNodeInfo` applies `replayIdxs` to the
parsed indices of each container's predicate-gpu-idx annotation): an index ≥
the device count is discarded without aborting the fold; an in-range index
charges `(cores, memory)` when the container's cores < 100 and
`(100, deviceTotalMemory)` otherwise; and a reservation that would overflow a
device is dropped while the fold continues with the remaining indices. -/
theorem C6_replay_rules (dtm dc : Nat) (c : Container) (ni : NodeInfo)
    (pre post : List Int) (k : Int) (j : Nat)
    (hk : (dc : Int) ≤ k) (hj : j < dc) :
    (replayIdxs dtm dc c ni (pre ++ k :: post) = replayIdxs dtm dc c ni (pre ++ post)) ∧
    (∀ ni', GetGPUResourceOfContainer c VCoreKey < HundredCore →
      ni.AddUsedResources j (GetGPUResourceOfContainer c VCoreKey)
        (GetGPUResourceOfContainer c VMemoryKey) = .ok ni' →
      replayIdx dtm dc c ni (j : Int) = ni') ∧
    (∀ ni', ¬(GetGPUResourceOfContainer c VCoreKey < HundredCore) →
      ni.AddUsedResources j HundredCore dtm = .ok ni' →
      replayIdx dtm dc c ni (j : Int) = ni') ∧
    (∀ e,
      ni.AddUsedResources j
          (if GetGPUResourceOfContainer c VCoreKey < HundredCore
           then GetGPUResourceOfContainer c VCoreKey else HundredCore)
          (if GetGPUResourceOfContainer c VCoreKey < HundredCore
           then GetGPUResourceOfContainer c VMemoryKey else dtm) = .error e →
      ∀ rest, replayIdxs dtm dc c ni ((j : Int) :: rest) = replayIdxs dtm dc c ni rest) := by
  have hjlt : ¬((dc : Int) ≤ (j : Int)) := by
    simp only [Int.ofNat_le, not_le]
    exact_mod_cast hj
  refine ⟨?_, ?_, ?_, ?_⟩
  · unfold replayIdxs
    rw [List.foldl_append, List.foldl_cons, List.foldl_append]
    have hskip : replayIdx dtm dc c (List.foldl (replayIdx dtm dc c) ni pre) k =
        List.foldl (replayIdx dtm dc c) ni pre := by
      unfold replayIdx
      rw [if_pos hk]
    rw [hskip]
  · intro ni' hshare hok
    unfold replayIdx
    rw [if_neg hjlt]
    dsimp only
    simp only [if_pos hshare]
    rw [hok]
  · intro ni' hexcl hok
    unfold replayIdx
    rw [if_neg hjlt]
    dsimp only
    simp only [if_neg hexcl]
    rw [hok]
  · intro e herr rest
    unfold replayIdxs
    rw [List.foldl_cons]
    have hdrop : replayIdx dtm dc c ni (j : Int) = ni := by
      unfold replayIdx
      rw [if_neg hjlt]
      dsimp only
      by_cases hshare : GetGPUResourceOfContainer c VCoreKey < HundredCore
      · simp only [if_pos hshare] at herr ⊢
        rw [herr]
      · simp only [if_neg hshare] at herr ⊢
        rw [herr]
    rw [hdrop]

/-- Witness for C6: a fresh two-device node, the out-of-range index 5
discarded from [0, 5], and concrete in-range share charging. -/
theorem C6_witness :
    replayIdxs 4 2 exContainerShare (NewNodeInfo exNodeC []) [(0 : Int), 5] =
      replayIdxs 4 2 exContainerShare (NewNodeInfo exNodeC []) [(0 : Int)] :=
  (C6_replay_rules 4 2 exContainerShare (NewNodeInfo exNodeC []) [(0 : Int)] [] 5 1
    (by decide) (by decide)).1

/-! ## Quota filter -/

theorem assoc_nodup_eq {β : Type} : ∀ (l : List (String × β)) (a : String) (b c : β),
    (l.map Prod.fst).Nodup → (a, b) ∈ l → (a, c) ∈ l → b = c := by
  intro l
  induction l with
  | nil => intro a b c _ hb; cases hb
  | cons p rest ih =>
    intro a b c hnd hb hc
    obtain ⟨hhead, htail⟩ := List.nodup_cons.mp hnd
    rcases List.mem_cons.mp hb with hb1 | hb2 <;> rcases List.mem_cons.mp hc with hc1 | hc2
    · rw [← hb1] at hc1; exact (Prod.mk.injEq _ _ _ _ ▸ hc1.symm).2
    · exfalso
      apply hhead
      have : a = p.1 := by rw [← hb1]
      rw [this] at hc2
      exact this ▸ List.mem_map_of_mem Prod.fst hc2
    · exfalso
      apply hhead
      have : a = p.1 := by rw [← hc1]
      rw [this] at hb2
      exact this ▸ List.mem_map_of_mem Prod.fst hb2
    · exact ih a b c htail hb2 hc2

theorem calculateGPUUsage_append_pod (pods : List Pod) (pod : Pod)
    (hp : quotaPod pod = true) :
    calculateGPUUsage (pods ++ [pod]) =
      calculateGPUUsage pods + (GetGPUResourceOfPod pod VCoreKey : Int) := by
  simp [calculateGPUUsage, List.filter_append, hp]

theorem calculateGPUUsage_listPods (modelLabel m ns : String) (cluster : Cluster) :
    calculateGPUUsage (listPodsOnNodes cluster (modelSelector modelLabel m) ns) =
      specModelUsage modelLabel m ns cluster := by
  unfold calculateGPUUsage listPodsOnNodes specModelUsage modelNodesOf
  dsimp only
  rw [List.filter_filter]

theorem nodePassesQuota_iff (modelLabel poolLabel : String)
    (gpuModels pools : List String) (n : Node) :
    nodePassesQuota modelLabel poolLabel gpuModels pools n = true ↔
      ((∃ v, n.labels.lookup modelLabel = some v ∧ v ∈ gpuModels) ∧
       (pools = [] ∨ ∃ w, n.labels.lookup poolLabel = some w ∧ w ∈ pools)) := by
  unfold nodePassesQuota
  rw [Bool.and_eq_true]
  constructor
  · rintro ⟨h1, h2⟩
    constructor
    · cases gpuModels with
      | nil => cases h1
      | cons g gs =>
        cases hlk : n.labels.lookup modelLabel with
        | none => rw [hlk] at h1; cases h1
        | some v =>
          rw [hlk] at h1
          simp only [Option.map_some, Option.getD_some] at h1
          exact ⟨v, rfl, (List.elem_iff).mp h1⟩
    · cases pools with
      | nil => exact Or.inl rfl
      | cons p ps =>
        cases hlk : n.labels.lookup poolLabel with
        | none => rw [hlk] at h2; cases h2
        | some w =>
          rw [hlk] at h2
          simp only [Option.map_some, Option.getD_some] at h2
          exact Or.inr ⟨w, rfl, (List.elem_iff).mp h2⟩
  · rintro ⟨⟨v, hv, hvm⟩, h2⟩
    constructor
    · cases gpuModels with
      | nil => cases hvm
      | cons g gs =>
        rw [hv]
        simp only [Option.map_some, Option.getD_some]
        exact (List.elem_iff).mpr hvm
    · rcases h2 with rfl | ⟨w, hw, hwm⟩
      · rfl
      · cases pools with
        | nil => cases hwm
        | cons p ps =>
          rw [hw]
          simp only [Option.map_some, Option.getD_some]
          exact (List.elem_iff).mpr hwm

/-- Claim C8: for a namespace with a quota record, a GPU model m is accepted
iff the vcuda-core sum of the namespace's non-terminal pods placed on
m-labeled nodes, plus the pending pod's own request, is at most limit·100; a
candidate node is kept iff its gpu-model label is in the accepted set and
(when the pool list is non-empty) its gpu-pool label is in the pool list; an
empty accepted set keeps no node and marks every candidate ExceedsGPUQuota. -/
theorem C8_quota_filter (modelLabel poolLabel : String) (cluster : Cluster)
    (pod : Pod) (q : NamespaceQuota) (nodes : List Node) (m : String) (limit : Int)
    (hnd : (q.quota.map Prod.fst).Nodup)
    (hmem : (m, limit) ∈ q.quota)
    (hpend : quotaPod pod = true) :
    (m ∈ filterGPUModel modelLabel cluster pod q ↔
      specModelUsage modelLabel m pod.ns cluster +
        (GetGPUResourceOfPod pod VCoreKey : Int) ≤ limit * (HundredCore : Int)) ∧
    (∀ nd, nd ∈ (filterNodes modelLabel poolLabel nodes
        (filterGPUModel modelLabel cluster pod q) q.pool).1 ↔
      (nd ∈ nodes ∧
       (∃ v, nd.labels.lookup modelLabel = some v ∧
          v ∈ filterGPUModel modelLabel cluster pod q) ∧
       (q.pool = [] ∨ ∃ w, nd.labels.lookup poolLabel = some w ∧ w ∈ q.pool))) ∧
    (filterGPUModel modelLabel cluster pod q = [] →
      (filterNodes modelLabel poolLabel nodes
        (filterGPUModel modelLabel cluster pod q) q.pool).1 = [] ∧
      ∀ nd ∈ nodes, (nd.name, "ExceedsGPUQuota") ∈
        (filterNodes modelLabel poolLabel nodes
          (filterGPUModel modelLabel cluster pod q) q.pool).2) ∧
    (∀ quota0 : List (String × NamespaceQuota), quota0.lookup pod.ns = some q →
      quotaFilter modelLabel poolLabel quota0 cluster pod nodes =
        filterNodes modelLabel poolLabel nodes
          (filterGPUModel modelLabel cluster pod q) q.pool) := by
  have husage : ∀ m', calculateGPUUsage
      (listPodsOnNodes cluster (modelSelector modelLabel m') pod.ns ++ [pod]) =
      specModelUsage modelLabel m' pod.ns cluster +
        (GetGPUResourceOfPod pod VCoreKey : Int) := by
    intro m'
    rw [calculateGPUUsage_append_pod _ pod hpend, calculateGPUUsage_listPods]
  refine ⟨?_, ?_, ?_, ?_⟩
  · unfold filterGPUModel
    rw [List.mem_map]
    constructor
    · rintro ⟨p, hp, hfst⟩
      obtain ⟨hpq, hcond⟩ := List.mem_filter.mp hp
      have hp2 : p = (m, p.2) := by
        rw [← hfst]
      rw [hp2] at hpq
      have hlim : p.2 = limit := assoc_nodup_eq q.quota m p.2 limit hnd hpq hmem
      simp only [decide_eq_true_eq] at hcond
      rw [← hfst, ← hlim]
      rw [← husage p.1]
      simpa [hfst] using hcond
    · intro hle
      refine ⟨(m, limit), List.mem_filter.mpr ⟨hmem, ?_⟩, rfl⟩
      simp only [decide_eq_true_eq]
      rw [husage m]
      exact hle
  · intro nd
    unfold filterNodes
    dsimp only
    rw [List.mem_filter, nodePassesQuota_iff]
  · intro hempty
    constructor
    · unfold filterNodes
      dsimp only
      apply List.eq_nil_of_subset_nil
      intro nd hnd2
      obtain ⟨_, hpass⟩ := List.mem_filter.mp hnd2
      rw [nodePassesQuota_iff] at hpass
      obtain ⟨⟨v, _, hvm⟩, _⟩ := hpass
      rw [hempty] at hvm
      cases hvm
    · intro nd hnd2
      unfold filterNodes
      dsimp only
      apply List.mem_map_of_mem
      apply List.mem_filter.mpr
      refine ⟨hnd2, ?_⟩
      cases hpass : nodePassesQuota modelLabel poolLabel
          (filterGPUModel modelLabel cluster pod q) q.pool nd
      · rfl
      · rw [nodePassesQuota_iff] at hpass
        obtain ⟨⟨v, _, hvm⟩, _⟩ := hpass
        rw [hempty] at hvm
        cases hvm
  · intro quota0 hlookup
    simp [quotaFilter, hlookup]

/-- Witness for C8: one M40-labeled node, one running 100-core pod in the
namespace, quota limit 1 M40. -/
theorem C8_witness :
    "M40" ∈ filterGPUModel "gpu-model" exClusterQuota exPodShare exQuota ↔
      specModelUsage "gpu-model" "M40" exPodShare.ns exClusterQuota +
        (GetGPUResourceOfPod exPodShare VCoreKey : Int) ≤ 1 * (HundredCore : Int) :=
  (C8_quota_filter "gpu-model" "gpu-pool" exClusterQuota exPodShare exQuota
    [exNodeM40] "M40" 1 (by decide) (by decide) (by decide)).1

end GPUAdmission
